import Mathlib

/-!
Verification development for the PTY session orchestration core of the
emdash repository (src/main/services/ptyManager.ts and
src/renderer/lib/activityStore.ts), shallowly embedded in Lean.

Conventions of the embedding:
* The Node platform check (process.platform === 'win32') becomes an
  explicit Boolean parameter named win32.
* External collaborators that the sources only import (the static provider
  registry, the user-settings store, the filesystem discovery scan, the
  node-pty process handles) become explicit parameters of the embedded
  functions; calls into the OS (resize, kill) are recorded in traces.
* JavaScript string truthiness (undefined or empty string is falsy) is
  translated with Option String and explicit emptiness tests.
-/

/-! ## Shell-argument parser (ptyManager.ts, parseShellArgs) -/

/-- The character loop of parseShellArgs, one source iteration per list
element.  State: inSingleQuote, inDoubleQuote, escape, the current token
under construction and the accumulated argument list.  The unclosed-quote
warning of the source is a log side effect only and is dropped. -/
def parseArgsLoop (win32 : Bool) : List Char → Bool → Bool → Bool →
    List Char → List String → List String
  | [], _, _, esc, current, acc =>
    -- trailing backslash is kept literally, then the last argument is pushed
    let current := if esc then current ++ ['\\'] else current
    if current.isEmpty then acc else acc ++ [String.mk current]
  | c :: rest, inS, inD, esc, current, acc =>
    if esc = true then
      parseArgsLoop win32 rest inS inD false (current ++ [c]) acc
    else if c = '\\' ∧ win32 = true ∧ inD = true ∧ rest.head? = some '"' then
      -- Windows: backslash escapes only a double quote inside double quotes
      parseArgsLoop win32 rest inS inD true current acc
    else if c = '\\' ∧ win32 = false ∧ inS = false then
      -- POSIX: backslash escapes the next character except in single quotes
      parseArgsLoop win32 rest inS inD true current acc
    else if c = '\'' ∧ inD = false then
      parseArgsLoop win32 rest (!inS) inD esc current acc
    else if c = '"' ∧ inS = false then
      parseArgsLoop win32 rest inS (!inD) esc current acc
    else if c = ' ' ∧ inS = false ∧ inD = false then
      if current.isEmpty then
        parseArgsLoop win32 rest inS inD esc [] acc
      else
        parseArgsLoop win32 rest inS inD esc [] (acc ++ [String.mk current])
    else
      parseArgsLoop win32 rest inS inD esc (current ++ [c]) acc

/-- parseShellArgs of ptyManager.ts: tokenize a shell-style argument
string, honoring single quotes, double quotes and platform-dependent
backslash escapes. -/
def parseShellArgs (win32 : Bool) (input : String) : List String :=
  parseArgsLoop win32 input.data false false false [] []

/-- Joining a token list with single spaces (the operation named by the
round-trip property of the spec). -/
def joinSpace : List String → String
  | [] => ""
  | [t] => t
  | t :: ts => t ++ " " ++ joinSpace ts

lemma mk_data (s : String) : String.mk s.data = s := rfl

lemma mkStr_ne_empty (l : List Char) (h : l ≠ []) : String.mk l ≠ "" := by
  intro he
  apply h
  have := congrArg String.data he
  simpa using this

lemma push_inv {acc : List String} {cur : List Char}
    (hacc : ∀ t ∈ acc, t ≠ "") (h : cur ≠ []) :
    ∀ t ∈ acc ++ [String.mk cur], t ≠ "" := by
  intro t ht
  rcases List.mem_append.mp ht with h1 | h2
  · exact hacc t h1
  · simp only [List.mem_singleton] at h2
    subst h2
    exact mkStr_ne_empty cur h

/-- Every token the parse loop emits is nonempty: pushes happen only under
the nonemptiness guard of the source. -/
lemma parseArgsLoop_ne_empty (win32 : Bool) (l : List Char) :
    ∀ (inS inD esc : Bool) (current : List Char) (acc : List String),
      (∀ t ∈ acc, t ≠ "") →
      ∀ t ∈ parseArgsLoop win32 l inS inD esc current acc, t ≠ "" := by
  induction l with
  | nil =>
    intro inS inD esc current acc hacc
    simp only [parseArgsLoop]
    split_ifs with h1 h2 h3
    · exact hacc
    · exact push_inv hacc (by simp)
    · exact hacc
    · exact push_inv hacc (by simpa using h3)
  | cons c rest ih =>
    intro inS inD esc current acc hacc
    simp only [parseArgsLoop]
    split_ifs with h1 h2 h3 h4 h5 h6 h7
    · exact ih _ _ _ _ _ hacc
    · exact ih _ _ _ _ _ hacc
    · exact ih _ _ _ _ _ hacc
    · exact ih _ _ _ _ _ hacc
    · exact ih _ _ _ _ _ hacc
    · exact ih _ _ _ _ _ hacc
    · exact ih _ _ _ _ _ (push_inv hacc (by simpa using h7))
    · exact ih _ _ _ _ _ hacc

/-- Tokens of parseShellArgs are never empty strings. -/
lemma parseShellArgs_ne_empty (win32 : Bool) (input : String) :
    ∀ t ∈ parseShellArgs win32 input, t ≠ "" :=
  parseArgsLoop_ne_empty win32 input.data false false false [] []
    (by intro t ht; cases ht)

/-- A character that triggers no quoting, splitting or escaping rule. -/
def CleanChar (c : Char) : Prop :=
  c ≠ ' ' ∧ c ≠ '\'' ∧ c ≠ '"' ∧ c ≠ '\\'

/-- Outside quotes and escapes, a run of clean characters is appended to
the current token verbatim. -/
lemma parseArgsLoop_clean_run (win32 : Bool) (cs : List Char) :
    ∀ (rest cur : List Char) (acc : List String),
      (∀ c ∈ cs, CleanChar c) →
      parseArgsLoop win32 (cs ++ rest) false false false cur acc =
        parseArgsLoop win32 rest false false false (cur ++ cs) acc := by
  induction cs with
  | nil =>
    intro rest cur acc _
    simp
  | cons c cs ih =>
    intro rest cur acc hclean
    obtain ⟨h1, h2, h3, h4⟩ := hclean c (List.mem_cons_self c cs)
    simp only [List.cons_append, parseArgsLoop]
    rw [if_neg (by simp), if_neg (by intro hco; exact h4 hco.1),
      if_neg (by intro hco; exact h4 hco.1),
      if_neg (by intro hco; exact h2 hco.1),
      if_neg (by intro hco; exact h3 hco.1),
      if_neg (by intro hco; exact h1 hco.1)]
    simpa [List.append_assoc] using ih rest (cur ++ [c]) acc
      (fun x hx => hclean x (List.mem_cons_of_mem c hx))

/-- A space outside quotes pushes the nonempty current token. -/
lemma parseArgsLoop_space (win32 : Bool) (rest cur : List Char)
    (acc : List String) (hcur : cur ≠ []) :
    parseArgsLoop win32 (' ' :: rest) false false false cur acc =
      parseArgsLoop win32 rest false false false []
        (acc ++ [String.mk cur]) := by
  simp only [parseArgsLoop]
  rw [if_neg (by simp),
    if_neg (by intro hco; exact absurd hco.1 (by decide)),
    if_neg (by intro hco; exact absurd hco.1 (by decide)),
    if_neg (by intro hco; exact absurd hco.1 (by decide)),
    if_neg (by intro hco; exact absurd hco.1 (by decide)),
    if_pos (by simp), if_neg (by simpa using hcur)]

lemma data_append (s t : String) : (s ++ t).data = s.data ++ t.data := rfl

/-- Parsing a space-join of nonempty clean tokens recovers the tokens. -/
lemma parseArgsLoop_join (win32 : Bool) (ts : List String) :
    ∀ acc : List String,
      (∀ t ∈ ts, t ≠ "") →
      (∀ t ∈ ts, ∀ c ∈ t.data, CleanChar c) →
      parseArgsLoop win32 (joinSpace ts).data false false false [] acc =
        acc ++ ts := by
  induction ts with
  | nil =>
    intro acc _ _
    simp [joinSpace, parseArgsLoop]
  | cons t ts ih =>
    intro acc hne hclean
    have htne : t.data ≠ [] := by
      intro h
      exact hne t (List.mem_cons_self t ts) (by
        have := congrArg String.mk h
        simpa [mk_data] using this)
    cases ts with
    | nil =>
      show parseArgsLoop win32 t.data false false false [] acc = acc ++ [t]
      rw [← List.append_nil t.data,
        parseArgsLoop_clean_run win32 t.data [] [] acc
          (hclean t (List.mem_cons_self t _))]
      simp only [parseArgsLoop, List.nil_append]
      rw [if_neg (by simpa using htne)]
      simp [mk_data]
    | cons t2 ts2 =>
      show parseArgsLoop win32 (t ++ " " ++ joinSpace (t2 :: ts2)).data
          false false false [] acc = acc ++ (t :: t2 :: ts2)
      have hdata : (t ++ " " ++ joinSpace (t2 :: ts2)).data =
          t.data ++ ' ' :: (joinSpace (t2 :: ts2)).data := by
        rw [data_append, data_append]
        simp
      rw [hdata,
        parseArgsLoop_clean_run win32 t.data _ [] acc
          (hclean t (List.mem_cons_self t _)),
        List.nil_append,
        parseArgsLoop_space win32 _ t.data acc htne,
        mk_data,
        ih (acc ++ [t]) (fun x hx => hne x (List.mem_cons_of_mem t hx))
          (fun x hx => hclean x (List.mem_cons_of_mem t hx))]
      simp

/-- C5 (amended): when no token of a parse contains a space, a quote or a
backslash, joining the tokens with single spaces and re-parsing yields
the same token list.  (The original claim, without the backslash
condition, fails on the POSIX platform; see the counterexample.) -/
theorem parseShellArgs_roundtrip_clean (win32 : Bool) (input : String)
    (hclean : ∀ t ∈ parseShellArgs win32 input, ∀ c ∈ t.data,
      c ≠ ' ' ∧ c ≠ '\'' ∧ c ≠ '"' ∧ c ≠ '\\') :
    parseShellArgs win32 (joinSpace (parseShellArgs win32 input)) =
      parseShellArgs win32 input := by
  have h := parseArgsLoop_join win32 (parseShellArgs win32 input) []
    (parseShellArgs_ne_empty win32 input) hclean
  simpa [parseShellArgs] using h

/-- Witness for C5 (amended) at a concrete input. -/
theorem parseShellArgs_roundtrip_clean_witness :
    (∀ t ∈ parseShellArgs false "--flag1 --flag2", ∀ c ∈ t.data,
      c ≠ ' ' ∧ c ≠ '\'' ∧ c ≠ '"' ∧ c ≠ '\\') ∧
    parseShellArgs false
        (joinSpace (parseShellArgs false "--flag1 --flag2")) =
      parseShellArgs false "--flag1 --flag2" :=
  ⟨by decide, parseShellArgs_roundtrip_clean false "--flag1 --flag2"
    (by decide)⟩

/-- C5 counterexample: on POSIX, the input consisting of a single-quoted
a-backslash-b has the single token a-backslash-b, which contains no
space and no quote, yet re-parsing the space-join of the tokens yields
the token ab instead. -/
theorem parseShellArgs_roundtrip_counterexample :
    (∀ t ∈ parseShellArgs false "'a\\b'", ∀ c ∈ t.data,
      c ≠ ' ' ∧ c ≠ '\'' ∧ c ≠ '"') ∧
    parseShellArgs false (joinSpace (parseShellArgs false "'a\\b'")) ≠
      parseShellArgs false "'a\\b'" := by
  exact ⟨by decide, by decide⟩

/-! ## Deterministic UUID derivation (ptyManager.ts, deterministicUuid)

The source hashes the input with Node crypto (SHA-256), forces the UUID
version and variant bits on bytes 6 and 8 of the digest, and formats the
first 16 bytes as an 8-4-4-4-12 lowercase-hex string.  SHA-256 is an
external primitive with a fixed public definition (FIPS 180-4); it is
implemented here executably over byte lists, with 32-bit words carried as
Nat kept below 2 ^ 32 by explicit reductions. -/

/-- 32-bit right rotation. -/
def rotr32 (n x : Nat) : Nat := ((x >>> n) ||| (x <<< (32 - n))) % 4294967296

/-- The SHA-256 round constants (decimal). -/
def shaK : List Nat :=
  [1116352408, 1899447441, 3049323471, 3921009573,
   961987163, 1508970993, 2453635748, 2870763221,
   3624381080, 310598401, 607225278, 1426881987,
   1925078388, 2162078206, 2614888103, 3248222580,
   3835390401, 4022224774, 264347078, 604807628,
   770255983, 1249150122, 1555081692, 1996064986,
   2554220882, 2821834349, 2952996808, 3210313671,
   3336571891, 3584528711, 113926993, 338241895,
   666307205, 773529912, 1294757372, 1396182291,
   1695183700, 1986661051, 2177026350, 2456956037,
   2730485921, 2820302411, 3259730800, 3345764771,
   3516065817, 3600352804, 4094571909, 275423344,
   430227734, 506948616, 659060556, 883997877,
   958139571, 1322822218, 1537002063, 1747873779,
   1955562222, 2024104815, 2227730452, 2361852424,
   2428436474, 2756734187, 3204031479, 3329325298]

/-- The eight SHA-256 working variables / chaining state. -/
structure Sha8 where
  a : Nat
  b : Nat
  c : Nat
  d : Nat
  e : Nat
  f : Nat
  g : Nat
  h : Nat

/-- The SHA-256 initial hash value (decimal). -/
def shaH0 : Sha8 :=
  ⟨1779033703, 3144134277, 1013904242, 2773480762,
   1359893119, 2600822924, 528734635, 1541459225⟩

/-- A number as 8 big-endian bytes (the padded bit length field). -/
def bigEndian8 (n : Nat) : List Nat :=
  [n / 2 ^ 56 % 256, n / 2 ^ 48 % 256, n / 2 ^ 40 % 256, n / 2 ^ 32 % 256,
   n / 2 ^ 24 % 256, n / 2 ^ 16 % 256, n / 2 ^ 8 % 256, n % 256]

/-- SHA-256 message padding: 0x80, zeros to 56 mod 64, 8-byte bit length. -/
def padMessage (msg : List Nat) : List Nat :=
  msg ++ [0x80] ++ List.replicate ((119 - msg.length % 64) % 64) 0 ++
    bigEndian8 (msg.length * 8)

/-- Split a byte list into 64-byte chunks. -/
def chunks64 : List Nat → List (List Nat)
  | [] => []
  | b :: rest => (b :: rest).take 64 :: chunks64 ((b :: rest).drop 64)
termination_by l => l.length
decreasing_by simp [List.length_drop]; omega

/-- Four big-endian bytes at a time into 32-bit words (bytes reduced mod
256, matching byte-buffer semantics). -/
def toWords : List Nat → List Nat
  | b0 :: b1 :: b2 :: b3 :: rest =>
    (b0 % 256 * 2 ^ 24 + b1 % 256 * 2 ^ 16 + b2 % 256 * 2 ^ 8 + b3 % 256) :: toWords rest
  | _ => []

/-- SHA-256 small sigma 0. -/
def smallSigma0 (x : Nat) : Nat := rotr32 7 x ^^^ rotr32 18 x ^^^ (x >>> 3)

/-- SHA-256 small sigma 1. -/
def smallSigma1 (x : Nat) : Nat := rotr32 17 x ^^^ rotr32 19 x ^^^ (x >>> 10)

/-- One word of the extended message schedule, from the words so far. -/
def scheduleStep (l : List Nat) : Nat :=
  (smallSigma1 (l.getD (l.length - 2) 0) + l.getD (l.length - 7) 0 +
   smallSigma0 (l.getD (l.length - 15) 0) + l.getD (l.length - 16) 0) % 4294967296

/-- Extend the 16 chunk words by n scheduled words. -/
def extendWords : Nat → List Nat → List Nat
  | 0, l => l
  | n + 1, l => extendWords n (l ++ [scheduleStep l])

/-- One SHA-256 compression round. -/
def shaRound (st : Sha8) (kw : Nat × Nat) : Sha8 :=
  let S1 := rotr32 6 st.e ^^^ rotr32 11 st.e ^^^ rotr32 25 st.e
  let ch := (st.e &&& st.f) ^^^ ((st.e ^^^ 0xffffffff) &&& st.g)
  let temp1 := (st.h + S1 + ch + kw.1 + kw.2) % 4294967296
  let S0 := rotr32 2 st.a ^^^ rotr32 13 st.a ^^^ rotr32 22 st.a
  let maj := (st.a &&& st.b) ^^^ (st.a &&& st.c) ^^^ (st.b &&& st.c)
  let temp2 := (S0 + maj) % 4294967296
  ⟨(temp1 + temp2) % 4294967296, st.a, st.b, st.c,
   (st.d + temp1) % 4294967296, st.e, st.f, st.g⟩

/-- Compress one 64-byte chunk into the chaining state. -/
def compressChunk (st : Sha8) (chunk : List Nat) : Sha8 :=
  let w := extendWords 48 (toWords chunk)
  let r := (shaK.zip w).foldl shaRound st
  ⟨(st.a + r.a) % 4294967296, (st.b + r.b) % 4294967296,
   (st.c + r.c) % 4294967296, (st.d + r.d) % 4294967296,
   (st.e + r.e) % 4294967296, (st.f + r.f) % 4294967296,
   (st.g + r.g) % 4294967296, (st.h + r.h) % 4294967296⟩

/-- SHA-256 over a byte list, as the final eight 32-bit chaining words. -/
def sha256Words (msg : List Nat) : Sha8 :=
  (chunks64 (padMessage msg)).foldl compressChunk shaH0

/-- A 32-bit word as 4 big-endian digest bytes. -/
def wordBytes (w : Nat) : List Nat :=
  [w / 2 ^ 24 % 256, w / 2 ^ 16 % 256, w / 2 ^ 8 % 256, w % 256]

/-- The 32 digest bytes of a final chaining state. -/
def digestBytes (s : Sha8) : List Nat :=
  wordBytes s.a ++ wordBytes s.b ++ wordBytes s.c ++ wordBytes s.d ++
  wordBytes s.e ++ wordBytes s.f ++ wordBytes s.g ++ wordBytes s.h

/-- The SHA-256 digest of a byte list. -/
def sha256Digest (msg : List Nat) : List Nat := digestBytes (sha256Words msg)

/-- The UTF-8 bytes of a string (the Node hash update encoding). -/
def strBytes (s : String) : List Nat := s.toUTF8.toList.map (fun b => b.toNat)

/-- One lowercase hexadecimal digit. -/
def hexDigit (n : Nat) : Char :=
  if n < 10 then Char.ofNat (48 + n) else Char.ofNat (87 + n)

/-- The two lowercase hex characters of one byte. -/
def hexByteChars (b : Nat) : List Char := [hexDigit (b / 16), hexDigit (b % 16)]

/-- Lowercase hex characters of a byte list (Buffer.toString hex). -/
def hexChars (bs : List Nat) : List Char := (bs.map hexByteChars).flatten

/-- Force the UUID version bits on byte 6 and the variant bits on byte 8,
as the source mutates the digest buffer. -/
def applyVersionVariant (bs : List Nat) : List Nat :=
  let b1 := bs.set 6 ((bs.getD 6 0 &&& 0x0f) ||| 0x40)
  b1.set 8 ((b1.getD 8 0 &&& 0x3f) ||| 0x80)

/-- Format a (version/variant adjusted) digest as the 8-4-4-4-12 UUID
string, mirroring the hex slicing of the source. -/
def uuidFromDigest (digest : List Nat) : String :=
  let hash := applyVersionVariant digest
  let hex := (hexChars hash).take 32
  String.mk (hex.take 8 ++ '-' :: ((hex.drop 8).take 4 ++ '-' ::
    ((hex.drop 12).take 4 ++ '-' :: ((hex.drop 16).take 4 ++ '-' ::
      (hex.drop 20).take 12))))

/-- deterministicUuid of ptyManager.ts: SHA-256 the input, force version 4
and the RFC 4122 variant, format as a UUID string. -/
def deterministicUuid (input : String) : String :=
  uuidFromDigest (sha256Digest (strBytes input))

/-- A lowercase hexadecimal character: a decimal digit or a letter
between a and f. -/
def IsLowerHexChar (c : Char) : Prop :=
  ('0' ≤ c ∧ c ≤ '9') ∨ ('a' ≤ c ∧ c ≤ 'f')

/-- The 8-4-4-4-12 lowercase-hex UUID shape, with version nibble 4 and an
RFC 4122 variant nibble at the canonical positions. -/
def UuidShaped (u : String) : Prop :=
  ∃ g1 g2 g3 g4 g5 : List Char,
    u.data = g1 ++ '-' :: (g2 ++ '-' :: (g3 ++ '-' :: (g4 ++ '-' :: g5))) ∧
    g1.length = 8 ∧ g2.length = 4 ∧ g3.length = 4 ∧ g4.length = 4 ∧
    g5.length = 12 ∧
    (∀ c ∈ g1 ++ g2 ++ g3 ++ g4 ++ g5, IsLowerHexChar c) ∧
    g3.head? = some '4' ∧
    ∃ c, g4.head? = some c ∧ c ∈ ['8', '9', 'a', 'b']

instance decIsLowerHexChar (c : Char) : Decidable (IsLowerHexChar c) := by
  unfold IsLowerHexChar
  infer_instance

lemma hexLower_of_lt {n : Nat} (h : n < 16) : IsLowerHexChar (hexDigit n) := by
  have H : ∀ m, m < 16 → IsLowerHexChar (hexDigit m) := by decide
  exact H n h

lemma hexLower_div {x : Nat} (h : x < 256) :
    IsLowerHexChar (hexDigit (x / 16)) := hexLower_of_lt (by omega)

lemma hexLower_mod (x : Nat) : IsLowerHexChar (hexDigit (x % 16)) :=
  hexLower_of_lt (Nat.mod_lt _ (by norm_num))

lemma and15_lt (x : Nat) : x &&& 15 < 16 :=
  Nat.lt_succ_of_le Nat.and_le_right

lemma and63_lt (x : Nat) : x &&& 63 < 64 :=
  Nat.lt_succ_of_le Nat.and_le_right

lemma byte6_div (x : Nat) : ((x &&& 15) ||| 64) / 16 = 4 := by
  have H : ∀ m, m < 16 → (m ||| 64) / 16 = 4 := by decide
  exact H _ (and15_lt x)

lemma byte6_lt (x : Nat) : (x &&& 15) ||| 64 < 256 := by
  have H : ∀ m, m < 16 → m ||| 64 < 256 := by decide
  exact H _ (and15_lt x)

lemma byte8_lt (x : Nat) : (x &&& 63) ||| 128 < 256 := by
  have H : ∀ m, m < 64 → m ||| 128 < 256 := by decide
  exact H _ (and63_lt x)

lemma byte8_variant (x : Nat) :
    hexDigit (((x &&& 63) ||| 128) / 16) ∈ ['8', '9', 'a', 'b'] := by
  have H : ∀ m, m < 64 → hexDigit ((m ||| 128) / 16) ∈ ['8', '9', 'a', 'b'] := by
    decide
  exact H _ (and63_lt x)

lemma digestBytes_explicit (a b c d e f g h : Nat) :
    digestBytes ⟨a, b, c, d, e, f, g, h⟩ =
    [a / 2 ^ 24 % 256, a / 2 ^ 16 % 256, a / 2 ^ 8 % 256, a % 256,
     b / 2 ^ 24 % 256, b / 2 ^ 16 % 256, b / 2 ^ 8 % 256, b % 256,
     c / 2 ^ 24 % 256, c / 2 ^ 16 % 256, c / 2 ^ 8 % 256, c % 256,
     d / 2 ^ 24 % 256, d / 2 ^ 16 % 256, d / 2 ^ 8 % 256, d % 256,
     e / 2 ^ 24 % 256, e / 2 ^ 16 % 256, e / 2 ^ 8 % 256, e % 256,
     f / 2 ^ 24 % 256, f / 2 ^ 16 % 256, f / 2 ^ 8 % 256, f % 256,
     g / 2 ^ 24 % 256, g / 2 ^ 16 % 256, g / 2 ^ 8 % 256, g % 256,
     h / 2 ^ 24 % 256, h / 2 ^ 16 % 256, h / 2 ^ 8 % 256, h % 256] := rfl

lemma uuidFromDigest_explicit (b0 b1 b2 b3 b4 b5 b6 b7 b8 b9 b10 b11 b12 b13
    b14 b15 b16 b17 b18 b19 b20 b21 b22 b23 b24 b25 b26 b27 b28 b29 b30 b31 :
    Nat) :
    uuidFromDigest [b0, b1, b2, b3, b4, b5, b6, b7, b8, b9, b10, b11, b12,
      b13, b14, b15, b16, b17, b18, b19, b20, b21, b22, b23, b24, b25, b26,
      b27, b28, b29, b30, b31] =
    String.mk
      ([hexDigit (b0 / 16), hexDigit (b0 % 16), hexDigit (b1 / 16),
        hexDigit (b1 % 16), hexDigit (b2 / 16), hexDigit (b2 % 16),
        hexDigit (b3 / 16), hexDigit (b3 % 16)] ++ '-' ::
       ([hexDigit (b4 / 16), hexDigit (b4 % 16), hexDigit (b5 / 16),
         hexDigit (b5 % 16)] ++ '-' ::
        ([hexDigit (((b6 &&& 15) ||| 64) / 16),
          hexDigit (((b6 &&& 15) ||| 64) % 16), hexDigit (b7 / 16),
          hexDigit (b7 % 16)] ++ '-' ::
         ([hexDigit (((b8 &&& 63) ||| 128) / 16),
           hexDigit (((b8 &&& 63) ||| 128) % 16), hexDigit (b9 / 16),
           hexDigit (b9 % 16)] ++ '-' ::
          [hexDigit (b10 / 16), hexDigit (b10 % 16), hexDigit (b11 / 16),
           hexDigit (b11 % 16), hexDigit (b12 / 16), hexDigit (b12 % 16),
           hexDigit (b13 / 16), hexDigit (b13 % 16), hexDigit (b14 / 16),
           hexDigit (b14 % 16), hexDigit (b15 / 16), hexDigit (b15 % 16)])))) :=
  rfl

lemma uuidFromDigest_digestBytes_shaped (s : Sha8) :
    (uuidFromDigest (digestBytes s)).length = 36 ∧
    UuidShaped (uuidFromDigest (digestBytes s)) := by
  obtain ⟨a, b, c, d, e, f, g, h⟩ := s
  rw [digestBytes_explicit, uuidFromDigest_explicit]
  constructor
  · simp [String.length]
  · refine ⟨_, _, _, _, _, rfl, rfl, rfl, rfl, rfl, rfl, ?_, ?_, ?_⟩
    · intro ch hch
      fin_cases hch <;>
      first
        | exact hexLower_mod _
        | exact hexLower_div (Nat.mod_lt _ (by norm_num))
        | exact hexLower_div (byte6_lt _)
        | exact hexLower_div (byte8_lt _)
    · rw [List.head?]
      rw [byte6_div]
      rfl
    · exact ⟨_, rfl, byte8_variant _⟩

lemma deterministicUuid_shaped (s : String) :
    (deterministicUuid s).length = 36 ∧ UuidShaped (deterministicUuid s) :=
  uuidFromDigest_digestBytes_shaped (sha256Words (strBytes s))

lemma deterministicUuid_ne_empty (s : String) : deterministicUuid s ≠ "" := by
  intro h
  have := (deterministicUuid_shaped s).1
  rw [h] at this
  simp at this

/-- C4: deterministicUuid is a pure deterministic function from strings to
strings, and every output is a 36-character 8-4-4-4-12 lowercase-hex UUID
string whose version nibble is 4 and whose variant nibble is 8, 9, a or b. -/
theorem deterministicUuid_pure_and_uuid_shaped :
    (∀ s t : String, s = t → deterministicUuid s = deterministicUuid t) ∧
    ∀ s : String,
      (deterministicUuid s).length = 36 ∧ UuidShaped (deterministicUuid s) :=
  ⟨fun _ _ hst => congrArg deterministicUuid hst, deterministicUuid_shaped⟩

/-- Witness for C4 at a concrete input. -/
theorem deterministicUuid_pure_and_uuid_shaped_witness :
    deterministicUuid "task1" = deterministicUuid "task1" ∧
    (deterministicUuid "task1").length = 36 ∧
    UuidShaped (deterministicUuid "task1") :=
  ⟨deterministicUuid_pure_and_uuid_shaped.1 "task1" "task1" rfl,
   deterministicUuid_pure_and_uuid_shaped.2 "task1"⟩

/-! ## PTY session identifiers

Modelled from the spec: the module implementing makePtyId and parsePtyId
(imported as shared code from the sources) is not under src/; per the spec
a PtyId is a compound identifier reversibly combining a provider id, a
kind discriminator (main vs chat) and a free-form task suffix, whose keys
start with the provider id followed by a dash and end with the suffix. -/

/-- The kind discriminator of a PtyId: a task's primary agent terminal or
a secondary conversation terminal. -/
inductive PtyIdKind where
  | main : PtyIdKind
  | chat : PtyIdKind
deriving DecidableEq

/-- The kind discriminator as it appears inside the identifier string. -/
def kindString : PtyIdKind → String
  | .main => "main"
  | .chat => "chat"

/-- The components of a parsed PtyId. -/
structure ParsedPtyId where
  providerId : String
  kind : PtyIdKind
  suffix : String
deriving DecidableEq

/-- Modelled from the spec: build the compound identifier. -/
def makePtyId (providerId : String) (kind : PtyIdKind) (suffix : String) :
    String :=
  providerId ++ "-" ++ kindString kind ++ "-" ++ suffix

/-- Split a character list on dashes. -/
def splitOnDash : List Char → List (List Char)
  | [] => [[]]
  | c :: rest =>
    if c = '-' then [] :: splitOnDash rest
    else
      match splitOnDash rest with
      | [] => [[c]]
      | g :: gs => (c :: g) :: gs

/-- Joining strings with single dashes. -/
def joinDash : List String → String
  | [] => ""
  | [t] => t
  | t :: ts => t ++ "-" ++ joinDash ts

/-- Modelled from the spec: parse a compound identifier back into its
components; identifiers without a recognizable kind or suffix do not
parse. -/
def parsePtyId (id : String) : Option ParsedPtyId :=
  match (splitOnDash id.data).map String.mk with
  | p :: k :: rest =>
    if rest = [] then none
    else
      match k with
      | "main" => some ⟨p, .main, joinDash rest⟩
      | "chat" => some ⟨p, .chat, joinDash rest⟩
      | _ => none
  | _ => none

/-! ## Persistent session-ID map (ptyManager.ts)

The map is read once into memory and rewritten wholesale on every set;
write failures are logged and non-fatal, so the in-memory object is the
authoritative state and is what this embedding carries.  The JSON object
is modelled as an association list with object-assignment update. -/

/-- A session entry: the assigned conversation UUID and the working
directory it was created in. -/
structure SessionEntry where
  uuid : String
  cwd : String
deriving DecidableEq

/-- The persisted session map: PtyId string to session entry. -/
abbrev SessionMap : Type := List (String × SessionEntry)

/-- Object property lookup. -/
def lookupSession (m : SessionMap) (k : String) : Option SessionEntry :=
  (List.find? (fun kv => kv.1 == k) m).map (fun kv => kv.2)

/-- markSessionCreated: object property assignment (replace an existing
key, otherwise add it) followed by the best-effort file write. -/
def markSessionCreated (m : SessionMap) (k : String) (e : SessionEntry) :
    SessionMap :=
  if List.any m (fun kv => kv.1 == k) then
    List.map (fun kv => if kv.1 == k then (k, e) else kv) m
  else
    m ++ [(k, e)]

/-- hasOtherSameProviderSessions: whether the map has entries for other
chats of the same provider in the same cwd. -/
def hasOtherSameProviderSessions (m : SessionMap) (ptyId providerId cwd :
    String) : Bool :=
  List.any m (fun kv =>
    kv.1.startsWith (providerId ++ "-") && kv.1 != ptyId && kv.2.cwd == cwd)

/-- getOtherSessionUuids: all session UUIDs of the same provider in the
same cwd, excluding one PTY. -/
def getOtherSessionUuids (m : SessionMap) (ptyId providerId cwd : String) :
    List String :=
  (List.filter (fun kv =>
    kv.1.startsWith (providerId ++ "-") && kv.1 != ptyId && kv.2.cwd == cwd)
    m).map (fun kv => kv.2.uuid)

/-- A provider definition from the static registry (an external
collaborator of ptyManager.ts): CLI name and optional flags. -/
structure ProviderDefinition where
  id : String
  cli : String
  resumeFlag : Option String
  defaultArgs : Option (List String)
  autoApproveFlag : Option String
  initialPromptFlag : Option String
  sessionIdFlag : Option String
  useKeystrokeInjection : Bool
deriving DecidableEq

/-- applySessionIsolation of ptyManager.ts.  The filesystem scan of
discoverExistingClaudeSession is an external effect and is passed in as
the discover oracle (cwd and the excluded UUID set to the discovered
session id, if any).  Returns the extended CLI args, the updated session
map, and whether isolation args were added. -/
def applySessionIsolation (discover : String → List String → Option String)
    (m : SessionMap) (cliArgs : List String) (provider : ProviderDefinition)
    (id : String) (cwd : String) (isResume : Bool) :
    List String × SessionMap × Bool :=
  if provider.sessionIdFlag.getD "" = "" then (cliArgs, m, false)
  else
    let flag := provider.sessionIdFlag.getD ""
    match parsePtyId id with
    | none => (cliArgs, m, false)
    | some parsed =>
      let sessionUuid := deterministicUuid parsed.suffix
      let known := ((lookupSession m id).map SessionEntry.uuid).getD ""
      if known ≠ "" then
        (cliArgs ++ ["--resume", known], m, true)
      else if parsed.kind = PtyIdKind.chat then
        (cliArgs ++ [flag, sessionUuid],
         markSessionCreated m id ⟨sessionUuid, cwd⟩, true)
      else if isResume &&
          hasOtherSameProviderSessions m id parsed.providerId cwd then
        match discover cwd (getOtherSessionUuids m id parsed.providerId cwd)
          with
        | some existingSession =>
          (cliArgs ++ [flag, existingSession],
           markSessionCreated m id ⟨existingSession, cwd⟩, true)
        | none =>
          (cliArgs ++ [flag, sessionUuid],
           markSessionCreated m id ⟨sessionUuid, cwd⟩, true)
      else if !isResume then
        (cliArgs ++ [flag, sessionUuid],
         markSessionCreated m id ⟨sessionUuid, cwd⟩, true)
      else (cliArgs, m, false)

lemma lookupSession_none_mark (m : SessionMap) (k : String)
    (e : SessionEntry) (h : lookupSession m k = none) :
    markSessionCreated m k e = m ++ [(k, e)] := by
  unfold markSessionCreated
  rw [if_neg]
  intro hany
  rcases List.any_eq_true.mp hany with ⟨kv, hmem, hk⟩
  have : List.find? (fun kv => kv.1 == k) m ≠ none := by
    intro hfind
    have := List.find?_eq_none.mp hfind kv hmem
    simp_all
  unfold lookupSession at h
  rcases hfind : List.find? (fun kv => kv.1 == k) m with _ | kv2
  · exact this hfind
  · rw [hfind] at h
    simp at h

lemma lookupSession_append_self (m : SessionMap) (k : String)
    (e : SessionEntry) (h : lookupSession m k = none) :
    lookupSession (m ++ [(k, e)]) k = some e := by
  unfold lookupSession at h ⊢
  rcases hfind : List.find? (fun kv => kv.1 == k) m with _ | kv2
  · rw [List.find?_append, hfind]
    simp
  · rw [hfind] at h
    simp at h

/-- C1: for a provider with a session-id flag and a parseable chat-kind
PtyId with no session-map entry, applySessionIsolation appends the
session-id flag and the deterministic UUID of the suffix, persists
exactly one new map entry for that id and returns true; a second call for
the same id instead appends --resume with that same UUID and writes no
new map entry. -/
theorem applySessionIsolation_chat_create_then_resume
    (discover discover2 : String → List String → Option String)
    (m : SessionMap) (args0 args1 : List String)
    (provider : ProviderDefinition) (id cwd prov suffix : String)
    (isResume isResume2 : Bool) (flag : String)
    (hflag : provider.sessionIdFlag = some flag) (hne : flag ≠ "")
    (hparse : parsePtyId id = some ⟨prov, PtyIdKind.chat, suffix⟩)
    (hnone : lookupSession m id = none) :
    applySessionIsolation discover m args0 provider id cwd isResume =
      (args0 ++ [flag, deterministicUuid suffix],
       m ++ [(id, ⟨deterministicUuid suffix, cwd⟩)], true) ∧
    applySessionIsolation discover2
      (m ++ [(id, ⟨deterministicUuid suffix, cwd⟩)]) args1 provider id cwd
      isResume2 =
      (args1 ++ ["--resume", deterministicUuid suffix],
       m ++ [(id, ⟨deterministicUuid suffix, cwd⟩)], true) := by
  have hmark := lookupSession_none_mark m id
    ⟨deterministicUuid suffix, cwd⟩ hnone
  have hlook := lookupSession_append_self m id
    ⟨deterministicUuid suffix, cwd⟩ hnone
  constructor
  · simp only [applySessionIsolation, hflag, Option.getD_some, hparse,
      hnone, Option.map_none', Option.getD_none, if_neg hne, hmark]
    simp
  · simp only [applySessionIsolation, hflag, Option.getD_some, hparse,
      hlook, Option.map_some', Option.getD_some, if_neg hne]
    rw [if_pos (deterministicUuid_ne_empty suffix)]

/-- Witness for C1 at concrete inputs. -/
theorem applySessionIsolation_chat_create_then_resume_witness :
    (∀ x : ProviderDefinition, x.sessionIdFlag = some "--session-id" →
      True) ∧
    applySessionIsolation (fun _ _ => none) [] []
      ⟨"claude", "claude", some "--resume", none, none, none,
       some "--session-id", false⟩ "claude-chat-task1" "/repo" false =
      (["--session-id", deterministicUuid "task1"],
       [("claude-chat-task1", ⟨deterministicUuid "task1", "/repo"⟩)],
       true) ∧
    applySessionIsolation (fun _ _ => none)
      [("claude-chat-task1", ⟨deterministicUuid "task1", "/repo"⟩)] []
      ⟨"claude", "claude", some "--resume", none, none, none,
       some "--session-id", false⟩ "claude-chat-task1" "/repo" true =
      (["--resume", deterministicUuid "task1"],
       [("claude-chat-task1", ⟨deterministicUuid "task1", "/repo"⟩)],
       true) := by
  refine ⟨fun _ _ => trivial, ?_⟩
  have h := applySessionIsolation_chat_create_then_resume
    (fun _ _ => none) (fun _ _ => none) [] [] []
    ⟨"claude", "claude", some "--resume", none, none, none,
     some "--session-id", false⟩
    "claude-chat-task1" "/repo" "claude" "task1" false true "--session-id"
    rfl (by decide) (by decide) rfl
  simpa using h

/-! ## Activity store (activityStore.ts)

The per-session maps of the store are modelled as functions from session
id to optional values (a missing map entry is none); timers are modelled
by recording the scheduled absolute fire time together with which callback
the source installs (the soft clear of armTimer runs setBusy false, the
hold clear of setBusy runs clearNow), and firing a pending timer is an
explicit transition.  Emissions to busy listeners are recorded in a
trace.  The numeric values of BUSY_HOLD_MS and CLEAR_BUSY_MS live in
activityConstants.ts, which is not under src/; they are carried as a
configuration parameter, which the claims do not depend on.  Time is a
Nat clock passed to each transition; the source reads Date.now, which is
positive and monotone in every run the claims describe. -/

/-- The classified activity signal of one output chunk. -/
inductive ActivitySignal where
  | busy : ActivitySignal
  | awaiting_input : ActivitySignal
  | idle : ActivitySignal
  | neutral : ActivitySignal
deriving DecidableEq

/-- Which callback a pending timer runs when it fires. -/
inductive TimerKind where
  | softClear : TimerKind
  | holdClear : TimerKind
deriving DecidableEq

/-- The hold and soft-clear durations (BUSY_HOLD_MS, CLEAR_BUSY_MS). -/
structure ActivityConfig where
  holdMs : Nat
  clearMs : Nat

/-- The mutable state of the activity store, per session id, plus the
trace of busy emissions. -/
structure StoreState where
  states : String → Option Bool
  lastSignals : String → Option ActivitySignal
  lastActions : String → Option String
  timers : String → Option (Nat × TimerKind)
  busySince : String → Option Nat
  trace : List (String × Bool)

/-- Update one key of a map-as-function. -/
def updF {α : Type} (f : String → Option α) (k : String) (v : Option α) :
    String → Option α :=
  fun x => if x = k then v else f x

/-- The store with no entries and no emissions. -/
def emptyStore : StoreState :=
  ⟨fun _ => none, fun _ => none, fun _ => none, fun _ => none,
   fun _ => none, []⟩

/-- The externally observed busy state (states.get(wsId) or false). -/
def busyObs (s : StoreState) (wsId : String) : Bool :=
  (s.states wsId).getD false

/-- setAction: record the action text and skip when unchanged (the action
listener emission carries no busy event, so it is not traced). -/
def setAction (s : StoreState) (wsId action : String) : StoreState :=
  if s.lastActions wsId = some action then s
  else { s with lastActions := updF s.lastActions wsId (some action) }

/-- clearAction: drop the action text if present. -/
def clearAction (s : StoreState) (wsId : String) : StoreState :=
  if s.lastActions wsId = none then s
  else { s with lastActions := updF s.lastActions wsId none }

/-- The clearNow closure of setBusy: cancel the pending timer, forget the
busy start, clear the action, and mark-and-emit not-busy unless already
exactly false. -/
def clearNow (s : StoreState) (wsId : String) : StoreState :=
  let s1 := { s with timers := updF s.timers wsId none,
                     busySince := updF s.busySince wsId none }
  let s2 := clearAction s1 wsId
  if s2.states wsId = some false then s2
  else { s2 with states := updF s2.states wsId (some false),
                 trace := s2.trace ++ [(wsId, false)] }

/-- setBusy of activityStore.ts.  Entering busy cancels timers, records
the busy start, and marks-and-emits busy if not already busy; leaving
busy honors the hold window: if the minimum hold has not elapsed since
the session became busy, a hold-clear timer is scheduled for the
remainder, otherwise clearNow runs at once.  A missing or zero busy
start counts as an already-elapsed hold, as in the source. -/
def setBusy (cfg : ActivityConfig) (s : StoreState) (wsId : String)
    (busy : Bool) (now : Nat) : StoreState :=
  if busy then
    let s1 := { s with timers := updF s.timers wsId none,
                       busySince := updF s.busySince wsId (some now) }
    if (s.states wsId).getD false then s1
    else { s1 with states := updF s1.states wsId (some true),
                   trace := s1.trace ++ [(wsId, true)] }
  else
    let started := (s.busySince wsId).getD 0
    let elapsed := if started = 0 then cfg.holdMs else now - started
    let remaining := if elapsed < cfg.holdMs then cfg.holdMs - elapsed else 0
    if remaining > 0 then
      let t := some (now + remaining, TimerKind.holdClear)
      { s with timers := updF s.timers wsId t }
    else clearNow s wsId

/-- armTimer: (re)arm the soft-clear timer for the quiet period. -/
def armTimer (cfg : ActivityConfig) (s : StoreState) (wsId : String)
    (now : Nat) : StoreState :=
  let t := some (now + cfg.clearMs, TimerKind.softClear)
  { s with timers := updF s.timers wsId t }

/-- Fire the pending timer of a session, running the callback the source
installed: setBusy false for a soft clear, clearNow for a hold clear. -/
def fireTimer (cfg : ActivityConfig) (s : StoreState) (wsId : String) :
    StoreState :=
  match s.timers wsId with
  | some (ft, TimerKind.softClear) => setBusy cfg s wsId false ft
  | some (_, TimerKind.holdClear) => clearNow s wsId
  | none => s

/-- The per-signal body of the activity handlers of activityStore.ts
(classification itself is the provider-aware classifier, an external
collaborator; its resulting signal and optional action text are the
inputs here). -/
def handleActivitySignal (cfg : ActivityConfig) (s : StoreState)
    (wsId : String) (sig : ActivitySignal) (actionText : Option String)
    (now : Nat) : StoreState :=
  let s1 := if sig ≠ ActivitySignal.neutral then
      { s with lastSignals := updF s.lastSignals wsId (some sig) }
    else s
  let s2 := match actionText with
    | some a => if a ≠ "" then setAction s1 wsId a else s1
    | none => s1
  match sig with
  | .busy => setBusy cfg s2 wsId true now
  | .awaiting_input => setBusy cfg s2 wsId false now
  | .idle => setBusy cfg s2 wsId false now
  | .neutral =>
    if (s2.states wsId).getD false then armTimer cfg s2 wsId now else s2

/-- The process-exit handler of activityStore.ts for a matched session:
record an idle last signal and run setBusy false. -/
def handlePtyExit (cfg : ActivityConfig) (s : StoreState) (wsId : String)
    (now : Nat) : StoreState :=
  let sig := some ActivitySignal.idle
  let s1 := { s with lastSignals := updF s.lastSignals wsId sig }
  setBusy cfg s1 wsId false now

lemma updF_self {α : Type} (f : String → Option α) (k : String)
    (v : Option α) : updF f k v k = v := by
  simp [updF]

lemma getD_false_eq_true {o : Option Bool} (h : o.getD false = true) :
    o = some true := by
  cases o <;> simp_all

lemma setBusy_true_fields (cfg : ActivityConfig) (s : StoreState)
    (wsId : String) (now : Nat) :
    (setBusy cfg s wsId true now).states wsId = some true ∧
    (setBusy cfg s wsId true now).busySince wsId = some now := by
  simp only [setBusy]
  rw [if_pos (by trivial)]
  split_ifs with h
  · exact ⟨getD_false_eq_true h, updF_self _ _ _⟩
  · exact ⟨updF_self _ _ _, updF_self _ _ _⟩

lemma clearNow_lastSignals (s : StoreState) (wsId : String) :
    (clearNow s wsId).lastSignals = s.lastSignals := by
  simp only [clearNow, clearAction]
  split_ifs <;> rfl

lemma clearNow_busyObs (s : StoreState) (wsId : String) :
    busyObs (clearNow s wsId) wsId = false := by
  simp only [clearNow, clearAction, busyObs]
  split_ifs with h1 h2 h3 <;> simp_all [updF_self]

lemma clearNow_timers (s : StoreState) (wsId : String) :
    (clearNow s wsId).timers wsId = none := by
  simp only [clearNow, clearAction]
  split_ifs <;> simp [updF_self]

lemma clearNow_trace_of_true (s : StoreState) (wsId : String)
    (h : s.states wsId = some true) :
    (clearNow s wsId).trace = s.trace ++ [(wsId, false)] := by
  simp only [clearNow, clearAction]
  split_ifs with h1 h2 <;> simp_all

/-- setBusy false either schedules a positive-remainder hold-clear timer
and changes nothing else, or runs clearNow at once. -/
lemma setBusy_false_cases (cfg : ActivityConfig) (s : StoreState)
    (wsId : String) (now : Nat) :
    (∃ r, 0 < r ∧ setBusy cfg s wsId false now =
      { s with timers := updF s.timers wsId (some (now + r, TimerKind.holdClear)) }) ∨
    setBusy cfg s wsId false now = clearNow s wsId := by
  simp only [setBusy]
  rw [if_neg (by simp)]
  split_ifs <;>
    first
      | exact Or.inr rfl
      | exact Or.inl ⟨_, by omega, rfl⟩

lemma setBusy_false_lastSignals (cfg : ActivityConfig) (s : StoreState)
    (wsId : String) (now : Nat) :
    (setBusy cfg s wsId false now).lastSignals = s.lastSignals := by
  rcases setBusy_false_cases cfg s wsId now with ⟨r, _, heq⟩ | heq
  · rw [heq]
  · rw [heq, clearNow_lastSignals]

/-- The within-hold-window case of setBusy false: only the hold-clear
timer is installed, for the remainder of the hold. -/
lemma setBusy_false_hold (cfg : ActivityConfig) (s : StoreState)
    (wsId : String) (now t0 : Nat) (hsince : s.busySince wsId = some t0)
    (ht0 : t0 ≠ 0) (hwin : now - t0 < cfg.holdMs) :
    setBusy cfg s wsId false now =
      { s with timers := updF s.timers wsId (some (now + (cfg.holdMs - (now - t0)), TimerKind.holdClear)) } := by
  simp only [setBusy, hsince, Option.getD_some]
  rw [if_neg (by simp)]
  rw [if_neg ht0, if_pos hwin, if_pos (by omega)]

/-- The already-elapsed case of setBusy false: clearNow runs at once. -/
lemma setBusy_false_elapsed (cfg : ActivityConfig) (s : StoreState)
    (wsId : String) (now : Nat)
    (h : (s.busySince wsId).getD 0 = 0 ∨
      (s.busySince wsId).getD 0 + cfg.holdMs ≤ now) :
    setBusy cfg s wsId false now = clearNow s wsId := by
  simp only [setBusy]
  rw [if_neg (by simp)]
  split_ifs with h1 h2 h3 h4 h5 <;> first | rfl | omega

lemma fireTimer_hold (cfg : ActivityConfig) (s : StoreState)
    (wsId : String) (ft : Nat)
    (h : s.timers wsId = some (ft, TimerKind.holdClear)) :
    fireTimer cfg s wsId = clearNow s wsId := by
  unfold fireTimer
  rw [h]

lemma fireTimer_none (cfg : ActivityConfig) (s : StoreState)
    (wsId : String) (h : s.timers wsId = none) :
    fireTimer cfg s wsId = s := by
  unfold fireTimer
  rw [h]

lemma busyObs_fireTimer_setBusy_false (cfg : ActivityConfig)
    (s : StoreState) (wsId : String) (now : Nat) :
    busyObs (fireTimer cfg (setBusy cfg s wsId false now) wsId) wsId =
      false := by
  rcases setBusy_false_cases cfg s wsId now with ⟨r, _, heq⟩ | heq
  · rw [heq, fireTimer_hold cfg _ wsId (now + r) (by simp [updF_self])]
    exact clearNow_busyObs _ _
  · rw [heq, fireTimer_none cfg _ wsId (clearNow_timers s wsId)]
    exact clearNow_busyObs s wsId

/-- C2: a busy signal at t0 followed by an idle signal at t1 within the
hold window keeps the observed busy state true, emits nothing, and
schedules the flip for exactly t0 plus the hold; firing that timer flips
the state to false and emits the false transition exactly once.  If the
hold has already elapsed at t1, the flip and its single emission are
immediate. -/
theorem activityStore_busy_idle_hold_flip (cfg : ActivityConfig)
    (s0 : StoreState) (wsId : String) (t0 t1 : Nat)
    (ht0 : 0 < t0) (ht01 : t0 ≤ t1) :
    (t1 - t0 < cfg.holdMs →
      busyObs (handleActivitySignal cfg
        (handleActivitySignal cfg s0 wsId ActivitySignal.busy none t0)
        wsId ActivitySignal.idle none t1) wsId = true ∧
      (handleActivitySignal cfg
        (handleActivitySignal cfg s0 wsId ActivitySignal.busy none t0)
        wsId ActivitySignal.idle none t1).trace =
        (handleActivitySignal cfg s0 wsId ActivitySignal.busy none
          t0).trace ∧
      (handleActivitySignal cfg
        (handleActivitySignal cfg s0 wsId ActivitySignal.busy none t0)
        wsId ActivitySignal.idle none t1).timers wsId =
        some (t0 + cfg.holdMs, TimerKind.holdClear) ∧
      busyObs (fireTimer cfg (handleActivitySignal cfg
        (handleActivitySignal cfg s0 wsId ActivitySignal.busy none t0)
        wsId ActivitySignal.idle none t1) wsId) wsId = false ∧
      (fireTimer cfg (handleActivitySignal cfg
        (handleActivitySignal cfg s0 wsId ActivitySignal.busy none t0)
        wsId ActivitySignal.idle none t1) wsId).trace =
        (handleActivitySignal cfg
          (handleActivitySignal cfg s0 wsId ActivitySignal.busy none t0)
          wsId ActivitySignal.idle none t1).trace ++ [(wsId, false)]) ∧
    (cfg.holdMs ≤ t1 - t0 →
      busyObs (handleActivitySignal cfg
        (handleActivitySignal cfg s0 wsId ActivitySignal.busy none t0)
        wsId ActivitySignal.idle none t1) wsId = false ∧
      (handleActivitySignal cfg
        (handleActivitySignal cfg s0 wsId ActivitySignal.busy none t0)
        wsId ActivitySignal.idle none t1).trace =
        (handleActivitySignal cfg s0 wsId ActivitySignal.busy none
          t0).trace ++ [(wsId, false)]) := by
  have hbusy : handleActivitySignal cfg s0 wsId ActivitySignal.busy none t0 =
      setBusy cfg
        { s0 with lastSignals := updF s0.lastSignals wsId (some ActivitySignal.busy) }
        wsId true t0 := rfl
  obtain ⟨hS1states, hS1since⟩ := setBusy_true_fields cfg
    { s0 with lastSignals := updF s0.lastSignals wsId (some ActivitySignal.busy) } wsId t0
  rw [hbusy]
  generalize hS1 : setBusy cfg
    { s0 with lastSignals := updF s0.lastSignals wsId (some ActivitySignal.busy) }
    wsId true t0 = S1 at hS1states hS1since
  have hidle : handleActivitySignal cfg S1 wsId ActivitySignal.idle none t1 =
      setBusy cfg
        { S1 with lastSignals := updF S1.lastSignals wsId (some ActivitySignal.idle) }
        wsId false t1 := rfl
  rw [hidle]
  have hsince2 : ({ S1 with lastSignals := updF S1.lastSignals wsId (some ActivitySignal.idle) } : StoreState).busySince wsId = some t0 := hS1since
  have hstates2 : ({ S1 with lastSignals := updF S1.lastSignals wsId (some ActivitySignal.idle) } : StoreState).states wsId = some true := hS1states
  constructor
  · intro hwin
    rw [setBusy_false_hold cfg _ wsId t1 t0 hsince2 (by omega) hwin]
    have htimeq : t1 + (cfg.holdMs - (t1 - t0)) = t0 + cfg.holdMs := by
      omega
    refine ⟨?_, rfl, ?_, ?_, ?_⟩
    · simp [busyObs, hS1states]
    · simp [updF_self, htimeq]
    · rw [fireTimer_hold cfg _ wsId (t1 + (cfg.holdMs - (t1 - t0)))
        (by simp [updF_self])]
      exact clearNow_busyObs _ _
    · rw [fireTimer_hold cfg _ wsId (t1 + (cfg.holdMs - (t1 - t0)))
        (by simp [updF_self])]
      exact clearNow_trace_of_true _ _ (by simpa using hS1states)
  · intro hel
    rw [setBusy_false_elapsed cfg
      { S1 with lastSignals := updF S1.lastSignals wsId (some ActivitySignal.idle) }
      wsId t1 (by
        right
        rw [hsince2]
        simp only [Option.getD_some]
        omega)]
    exact ⟨clearNow_busyObs _ _, clearNow_trace_of_true _ _ hstates2⟩

/-- Witness for C2 at concrete inputs. -/
theorem activityStore_busy_idle_hold_flip_witness :
    ((0 : Nat) < 50 ∧ (50 : Nat) ≤ 60 ∧ (60 : Nat) - 50 < 100) ∧
    (busyObs (handleActivitySignal ⟨100, 500⟩
      (handleActivitySignal ⟨100, 500⟩ emptyStore "t1"
        ActivitySignal.busy none 50) "t1" ActivitySignal.idle none 60)
      "t1" = true ∧
    (handleActivitySignal ⟨100, 500⟩
      (handleActivitySignal ⟨100, 500⟩ emptyStore "t1"
        ActivitySignal.busy none 50) "t1" ActivitySignal.idle none
      60).trace =
      (handleActivitySignal ⟨100, 500⟩ emptyStore "t1"
        ActivitySignal.busy none 50).trace ∧
    (handleActivitySignal ⟨100, 500⟩
      (handleActivitySignal ⟨100, 500⟩ emptyStore "t1"
        ActivitySignal.busy none 50) "t1" ActivitySignal.idle none
      60).timers "t1" = some (50 + 100, TimerKind.holdClear) ∧
    busyObs (fireTimer ⟨100, 500⟩ (handleActivitySignal ⟨100, 500⟩
      (handleActivitySignal ⟨100, 500⟩ emptyStore "t1"
        ActivitySignal.busy none 50) "t1" ActivitySignal.idle none 60)
      "t1") "t1" = false ∧
    (fireTimer ⟨100, 500⟩ (handleActivitySignal ⟨100, 500⟩
      (handleActivitySignal ⟨100, 500⟩ emptyStore "t1"
        ActivitySignal.busy none 50) "t1" ActivitySignal.idle none 60)
      "t1").trace =
      (handleActivitySignal ⟨100, 500⟩
        (handleActivitySignal ⟨100, 500⟩ emptyStore "t1"
          ActivitySignal.busy none 50) "t1" ActivitySignal.idle none
        60).trace ++ [("t1", false)]) :=
  ⟨by omega,
   (activityStore_busy_idle_hold_flip ⟨100, 500⟩ emptyStore "t1" 50 60
     (by omega) (by omega)).1 (by decide)⟩

/-- C6: a process-exit event records an idle last signal for the session
unconditionally; its observed busy state becomes false: at once when the
session was not inside a busy hold window (in particular whenever the
hold had already elapsed), and otherwise when the hold-clear timer the
exit installed fires. -/
theorem activityStore_exit_forces_idle (cfg : ActivityConfig)
    (s : StoreState) (wsId : String) (t : Nat) :
    (handlePtyExit cfg s wsId t).lastSignals wsId =
      some ActivitySignal.idle ∧
    busyObs (fireTimer cfg (handlePtyExit cfg s wsId t) wsId) wsId =
      false ∧
    ((s.busySince wsId).getD 0 = 0 ∨
        (s.busySince wsId).getD 0 + cfg.holdMs ≤ t →
      busyObs (handlePtyExit cfg s wsId t) wsId = false) := by
  have hexit : handlePtyExit cfg s wsId t =
      setBusy cfg
        { s with lastSignals := updF s.lastSignals wsId (some ActivitySignal.idle) }
        wsId false t := rfl
  rw [hexit]
  refine ⟨?_, busyObs_fireTimer_setBusy_false cfg _ wsId t, ?_⟩
  · rw [setBusy_false_lastSignals]
    exact updF_self _ _ _
  · intro h
    have h2 : (({ s with lastSignals := updF s.lastSignals wsId (some ActivitySignal.idle) } : StoreState).busySince wsId).getD 0 = 0 ∨
        (({ s with lastSignals := updF s.lastSignals wsId (some ActivitySignal.idle) } : StoreState).busySince wsId).getD 0 + cfg.holdMs ≤ t := h
    rw [setBusy_false_elapsed cfg _ wsId t h2]
    exact clearNow_busyObs _ _

/-- Witness for C6 at concrete inputs. -/
theorem activityStore_exit_forces_idle_witness :
    (handlePtyExit ⟨100, 500⟩ emptyStore "t1" 7).lastSignals "t1" =
      some ActivitySignal.idle ∧
    busyObs (fireTimer ⟨100, 500⟩ (handlePtyExit ⟨100, 500⟩ emptyStore
      "t1" 7) "t1") "t1" = false ∧
    busyObs (handlePtyExit ⟨100, 500⟩ emptyStore "t1" 7) "t1" = false :=
  ⟨(activityStore_exit_forces_idle ⟨100, 500⟩ emptyStore "t1" 7).1,
   (activityStore_exit_forces_idle ⟨100, 500⟩ emptyStore "t1" 7).2.1,
   (activityStore_exit_forces_idle ⟨100, 500⟩ emptyStore "t1" 7).2.2
     (Or.inl (by simp [emptyStore]))⟩

/-! ## PTY registry (ptyManager.ts)

The in-memory Map of PTY records is a function from id to optional
record; the node-pty process handle is external, so the resize and kill
calls issued to it are recorded in traces, and whether a call throws is an
input (the ok and killThrows parameters).  Resize and kill dimensions are
Int: every Int is a finite integral JavaScript number, so the
Number.isFinite and Math.floor steps of the source are identities here. -/

/-- Local or remote record kind. -/
inductive PtyKind where
  | local : PtyKind
  | ssh : PtyKind
deriving DecidableEq

/-- A PTY registry record (the process handle itself is external). -/
structure PtyRecord where
  id : String
  cwd : Option String
  isDirectSpawn : Bool
  kind : Option PtyKind
  cols : Option Int
  rows : Option Int
deriving DecidableEq

/-- The registry plus the traces of calls issued to process handles. -/
structure PtyRegistry where
  recs : String → Option PtyRecord
  resizeCalls : List (String × Int × Int)
  killCalls : List String

/-- Minimum dimensions enforced by resizePty. -/
def MIN_PTY_COLS : Int := 2

/-- Minimum dimensions enforced by resizePty. -/
def MIN_PTY_ROWS : Int := 1

/-- resizePty of ptyManager.ts: unknown ids are ignored; requested
dimensions are clamped to the minimums; a resize equal to the last
applied dimensions is skipped; otherwise the resize call is issued, and
the recorded dimensions are updated only when it does not throw (ok);
thrown benign errors are swallowed and others logged, neither changing
the record. -/
def resizePty (ok : Bool) (st : PtyRegistry) (id : String)
    (cols rows : Int) : PtyRegistry :=
  match st.recs id with
  | none => st
  | some rec =>
    let normalizedCols := max MIN_PTY_COLS cols
    let normalizedRows := max MIN_PTY_ROWS rows
    if normalizedCols ≤ 0 ∨ normalizedRows ≤ 0 then st
    else if rec.cols = some normalizedCols ∧ rec.rows = some normalizedRows
      then st
    else
      let st1 := { st with resizeCalls :=
        st.resizeCalls ++ [(id, normalizedCols, normalizedRows)] }
      if ok then
        { st1 with recs := updF st1.recs id (some { rec with
            cols := some normalizedCols, rows := some normalizedRows }) }
      else st1

/-- killPty of ptyManager.ts: the kill call is issued inside a
try/finally whose finally deletes the record, so the record is removed
whether or not the kill throws; the Boolean result is whether the
exception propagates to the caller. -/
def killPty (killThrows : Bool) (st : PtyRegistry) (id : String) :
    PtyRegistry × Bool :=
  match st.recs id with
  | none => (st, false)
  | some _ =>
    ({ st with recs := updF st.recs id none,
               killCalls := st.killCalls ++ [id] }, killThrows)

/-- hasPty of ptyManager.ts. -/
def hasPty (st : PtyRegistry) (id : String) : Bool :=
  (st.recs id).isSome

/-- C8: for a registered id, resizePty 1 1 clamps to 2 columns and 1 row
before resizing the process (the issued call carries the clamped
dimensions, and none is issued if those were already applied), and an
identical repeated call is a no-op issuing no second resize call. -/
theorem resizePty_clamps_and_dedups (st : PtyRegistry) (id : String)
    (rec : PtyRecord) (h : st.recs id = some rec) :
    (resizePty true st id 1 1).recs id =
      some { rec with cols := some 2, rows := some 1 } ∧
    (resizePty true st id 1 1).resizeCalls = st.resizeCalls ++
      (if rec.cols = some 2 ∧ rec.rows = some 1 then [] else [(id, 2, 1)]) ∧
    resizePty true (resizePty true st id 1 1) id 1 1 =
      resizePty true st id 1 1 := by
  have hmax1 : max MIN_PTY_COLS 1 = 2 := by decide
  have hmax2 : max MIN_PTY_ROWS 1 = 1 := by decide
  simp only [resizePty, h, hmax1, hmax2]
  rw [if_neg (by omega)]
  by_cases hdup : rec.cols = some 2 ∧ rec.rows = some 1
  · rw [if_pos hdup]
    refine ⟨?_, ?_, ?_⟩
    · rw [h]
      obtain ⟨hc, hr⟩ := hdup
      cases rec
      simp_all
    · rw [if_pos hdup]
      simp
    · simp only [resizePty, h, hmax1, hmax2]
      rw [if_neg (by omega), if_pos hdup]
  · rw [if_neg hdup, if_pos trivial]
    refine ⟨?_, ?_, ?_⟩
    · simp [updF_self]
    · rw [if_neg hdup]
    · simp only [resizePty, updF_self, hmax1, hmax2]
      rw [if_neg (by omega), if_pos (by simp)]

/-- Witness for C8 at concrete inputs. -/
theorem resizePty_clamps_and_dedups_witness :
    (resizePty true
      ⟨updF (fun _ => none) "p1"
        (some ⟨"p1", none, false, some PtyKind.local, some 80, some 24⟩),
       [], []⟩ "p1" 1 1).recs "p1" =
      some ⟨"p1", none, false, some PtyKind.local, some 2, some 1⟩ ∧
    (resizePty true
      ⟨updF (fun _ => none) "p1"
        (some ⟨"p1", none, false, some PtyKind.local, some 80, some 24⟩),
       [], []⟩ "p1" 1 1).resizeCalls = [("p1", 2, 1)] ∧
    resizePty true (resizePty true
      ⟨updF (fun _ => none) "p1"
        (some ⟨"p1", none, false, some PtyKind.local, some 80, some 24⟩),
       [], []⟩ "p1" 1 1) "p1" 1 1 =
      resizePty true
        ⟨updF (fun _ => none) "p1"
          (some ⟨"p1", none, false, some PtyKind.local, some 80, some 24⟩),
         [], []⟩ "p1" 1 1 := by
  have h := resizePty_clamps_and_dedups
    ⟨updF (fun _ => none) "p1"
      (some ⟨"p1", none, false, some PtyKind.local, some 80, some 24⟩),
     [], []⟩ "p1"
    ⟨"p1", none, false, some PtyKind.local, some 80, some 24⟩
    (by simp [updF_self])
  simpa using h

/-- C9: for a registered id, after killPty returns, normally or by
propagating the exception of the underlying kill call, the registry
record is removed and hasPty is false. -/
theorem killPty_removes_record (st : PtyRegistry) (id : String)
    (killThrows : Bool) (h : hasPty st id = true) :
    hasPty (killPty killThrows st id).1 id = false ∧
    (killPty killThrows st id).2 = killThrows := by
  unfold hasPty at h
  rcases hrec : st.recs id with _ | rec
  · rw [hrec] at h
    simp at h
  · simp only [killPty, hrec]
    exact ⟨by simp [hasPty, updF_self], by simp⟩

/-- Witness for C9 at concrete inputs. -/
theorem killPty_removes_record_witness :
    hasPty
      ⟨updF (fun _ => none) "p1"
        (some ⟨"p1", none, false, some PtyKind.local, some 80, some 24⟩),
       [], []⟩ "p1" = true ∧
    hasPty (killPty true
      ⟨updF (fun _ => none) "p1"
        (some ⟨"p1", none, false, some PtyKind.local, some 80, some 24⟩),
       [], []⟩ "p1").1 "p1" = false :=
  ⟨by decide,
   (killPty_removes_record
     ⟨updF (fun _ => none) "p1"
       (some ⟨"p1", none, false, some PtyKind.local, some 80, some 24⟩),
      [], []⟩ "p1" true (by decide)).1⟩

/-! ## Provider command resolver (ptyManager.ts)

The static provider registry and the user-settings store are external
collaborators (imported from shared/settings modules), so the provider
list and the per-provider custom-config lookup are parameters.  Custom
env values are strings here; the typeof string check of the source is
then vacuously true, which no claim depends on. -/

/-- A user-editable custom-config record for one provider.  A missing
field is an undefined property. -/
structure ProviderCustomConfig where
  cli : Option String
  resumeFlag : Option String
  defaultArgs : Option String
  autoApproveFlag : Option String
  initialPromptFlag : Option String
  extraArgs : Option String
  env : Option (List (String × String))
deriving DecidableEq

/-- The resolved effective command configuration. -/
structure ResolvedProviderCommandConfig where
  provider : ProviderDefinition
  cli : String
  resumeFlag : Option String
  defaultArgs : Option (List String)
  autoApproveFlag : Option String
  initialPromptFlag : Option String
  extraArgs : Option (List String)
  env : Option (List (String × String))
deriving DecidableEq

/-- JavaScript String.prototype.trim: drop whitespace from both ends
(written out over the character list so that it evaluates by kernel
reduction). -/
def jsTrim (s : String) : String :=
  String.mk
    (((s.data.dropWhile Char.isWhitespace).reverse.dropWhile
      Char.isWhitespace).reverse)

/-- The strict identifier pattern for custom env keys. -/
def isEnvKey (k : String) : Bool :=
  match k.data with
  | [] => false
  | c :: cs =>
    (c.isAlpha || c = '_') && cs.all (fun d => d.isAlphanum || d = '_')

/-- resolveProviderCommandConfig of ptyManager.ts: look the provider up
(null for unknown ids), then prefer present custom values per field,
with the source's per-field emptiness rules. -/
def resolveProviderCommandConfig (win32 : Bool)
    (providers : List ProviderDefinition)
    (getCustom : String → Option ProviderCustomConfig)
    (providerId : String) : Option ResolvedProviderCommandConfig :=
  match providers.find? (fun p => p.id == providerId) with
  | none => none
  | some provider =>
    let customConfig := getCustom provider.id
    let extraArgs :=
      match customConfig.bind ProviderCustomConfig.extraArgs with
      | some s =>
        if jsTrim s ≠ "" then some (parseShellArgs win32 (jsTrim s)) else none
      | none => none
    let env :=
      match customConfig.bind ProviderCustomConfig.env with
      | some kvs =>
        let e := kvs.filter (fun kv => isEnvKey kv.1)
        if e.isEmpty then none else some e
      | none => none
    some
      { provider := provider
        cli :=
          match customConfig.bind ProviderCustomConfig.cli with
          | some c =>
            if c ≠ "" then c
            else if provider.cli ≠ "" then provider.cli
            else providerId.toLower
          | none =>
            if provider.cli ≠ "" then provider.cli else providerId.toLower
        resumeFlag :=
          match customConfig.bind ProviderCustomConfig.resumeFlag with
          | some r => some r
          | none => provider.resumeFlag
        defaultArgs :=
          match customConfig.bind ProviderCustomConfig.defaultArgs with
          | some d => some (parseShellArgs win32 d)
          | none => provider.defaultArgs
        autoApproveFlag :=
          match customConfig.bind ProviderCustomConfig.autoApproveFlag with
          | some a => some a
          | none => provider.autoApproveFlag
        initialPromptFlag :=
          match customConfig.bind ProviderCustomConfig.initialPromptFlag with
          | some i => some i
          | none => provider.initialPromptFlag
        extraArgs := extraArgs
        env := env }

/-- C7 counterexample: an empty-string custom cli override is not
preferred; the resolver falls back to the provider default, so cli is a
second exception besides extraArgs to the prefer-custom-even-if-empty
rule.  Here the custom config has cli set to the empty string, yet the
resolved cli is the provider default. -/
theorem resolveProviderCommandConfig_cli_counterexample :
    ((fun _ => some ⟨some "", none, none, none, none, none, none⟩ :
        String → Option ProviderCustomConfig) "claude").bind
      ProviderCustomConfig.cli = some "" ∧
    (resolveProviderCommandConfig false
      [⟨"claude", "claude", some "--resume", none, none, none,
        some "--session-id", false⟩]
      (fun _ => some ⟨some "", none, none, none, none, none, none⟩)
      "claude").map ResolvedProviderCommandConfig.cli ≠ some "" := by
  exact ⟨rfl, by decide⟩

/-- C7 (amended): the resolver prefers a present custom value for every
overridable field even when it is the empty string, except extraArgs,
where an empty or whitespace-only override keeps the unset default, and
except cli, where an empty-string override falls back to the provider
default; an unknown provider id resolves to none. -/
theorem resolveProviderCommandConfig_prefers_custom (win32 : Bool)
    (providers : List ProviderDefinition)
    (getCustom : String → Option ProviderCustomConfig)
    (providerId : String) :
    (providers.find? (fun p => p.id == providerId) = none →
      resolveProviderCommandConfig win32 providers getCustom providerId =
        none) ∧
    ∀ provider cc,
      providers.find? (fun p => p.id == providerId) = some provider →
      getCustom provider.id = some cc →
      ∃ r, resolveProviderCommandConfig win32 providers getCustom
          providerId = some r ∧
        (∀ v, cc.resumeFlag = some v → r.resumeFlag = some v) ∧
        (∀ v, cc.defaultArgs = some v →
          r.defaultArgs = some (parseShellArgs win32 v)) ∧
        (∀ v, cc.autoApproveFlag = some v → r.autoApproveFlag = some v) ∧
        (∀ v, cc.initialPromptFlag = some v →
          r.initialPromptFlag = some v) ∧
        (∀ v, cc.cli = some v → v ≠ "" → r.cli = v) ∧
        (cc.cli = some "" →
          r.cli = (if provider.cli ≠ "" then provider.cli
            else providerId.toLower)) ∧
        (∀ v, cc.extraArgs = some v → jsTrim v = "" → r.extraArgs = none) ∧
        (∀ v, cc.extraArgs = some v → jsTrim v ≠ "" →
          r.extraArgs = some (parseShellArgs win32 (jsTrim v))) := by
  constructor
  · intro hfind
    simp [resolveProviderCommandConfig, hfind]
  · intro provider cc hfind hcc
    refine ⟨{ provider := provider
              cli :=
                match cc.cli with
                | some c =>
                  if c ≠ "" then c
                  else if provider.cli ≠ "" then provider.cli
                  else providerId.toLower
                | none =>
                  if provider.cli ≠ "" then provider.cli
                  else providerId.toLower
              resumeFlag :=
                match cc.resumeFlag with
                | some r => some r
                | none => provider.resumeFlag
              defaultArgs :=
                match cc.defaultArgs with
                | some d => some (parseShellArgs win32 d)
                | none => provider.defaultArgs
              autoApproveFlag :=
                match cc.autoApproveFlag with
                | some a => some a
                | none => provider.autoApproveFlag
              initialPromptFlag :=
                match cc.initialPromptFlag with
                | some i => some i
                | none => provider.initialPromptFlag
              extraArgs :=
                match cc.extraArgs with
                | some s =>
                  if jsTrim s ≠ "" then
                    some (parseShellArgs win32 (jsTrim s))
                  else none
                | none => none
              env :=
                match cc.env with
                | some kvs =>
                  if (kvs.filter (fun kv => isEnvKey kv.1)).isEmpty then
                    none
                  else some (kvs.filter (fun kv => isEnvKey kv.1))
                | none => none },
      by simp only [resolveProviderCommandConfig, hfind, hcc,
           Option.some_bind],
      ?_, ?_, ?_, ?_, ?_, ?_, ?_, ?_⟩
    · intro v hv
      simp [hv]
    · intro v hv
      simp [hv]
    · intro v hv
      simp [hv]
    · intro v hv
      simp [hv]
    · intro v hv hne
      simp [hv, hne]
    · intro hv
      simp [hv]
    · intro v hv htrim
      simp [hv, htrim]
    · intro v hv htrim
      simp [hv, htrim]

/-- Witness for C7 (amended) at concrete inputs. -/
theorem resolveProviderCommandConfig_prefers_custom_witness :
    [(⟨"claude", "claude", some "--resume", none, none, none,
        some "--session-id", false⟩ : ProviderDefinition)].find?
      (fun p => p.id == "claude") = some
        ⟨"claude", "claude", some "--resume", none, none, none,
         some "--session-id", false⟩ ∧
    ∃ r, resolveProviderCommandConfig false
        [⟨"claude", "claude", some "--resume", none, none, none,
          some "--session-id", false⟩]
        (fun _ => some ⟨none, some "", some "-a -b", none, none,
          some "  ", none⟩)
        "claude" = some r ∧
      r.resumeFlag = some "" ∧
      r.defaultArgs = some ["-a", "-b"] ∧
      r.extraArgs = none := by
  refine ⟨by decide, ?_⟩
  obtain ⟨r, hr, hresume, hdefault, _, _, _, _, hextra, _⟩ :=
    (resolveProviderCommandConfig_prefers_custom false
      [⟨"claude", "claude", some "--resume", none, none, none,
        some "--session-id", false⟩]
      (fun _ => some ⟨none, some "", some "-a -b", none, none,
        some "  ", none⟩)
      "claude").2
      ⟨"claude", "claude", some "--resume", none, none, none,
       some "--session-id", false⟩
      ⟨none, some "", some "-a -b", none, none, some "  ", none⟩
      (by decide) rfl
  refine ⟨r, hr, hresume "" rfl, ?_, hextra "  " rfl (by decide)⟩
  have := hdefault "-a -b" rfl
  rw [this]
  rfl

/-! ## Provider CLI argument assembly (ptyManager.ts) -/

/-- The options record of buildProviderCliArgs.  Optional booleans of the
source are Bool (undefined is falsy); optional strings are Option. -/
structure ProviderCliArgsOptions where
  resume : Bool
  resumeFlag : Option String
  defaultArgs : Option (List String)
  extraArgs : Option (List String)
  autoApprove : Bool
  autoApproveFlag : Option String
  initialPrompt : Option String
  initialPromptFlag : Option String
  useKeystrokeInjection : Bool
deriving DecidableEq

/-- The resume-flag push: when resume is requested and the flag string is
truthy, append its shell tokens to the argument vector. -/
def resumeStep (win32 : Bool) (o : ProviderCliArgsOptions)
    (args : List String) : List String :=
  if o.resume ∧ o.resumeFlag.getD "" ≠ "" then
    args ++ parseShellArgs win32 (o.resumeFlag.getD "") else args

/-- The default-args push: a present nonempty list is appended. -/
def defaultStep (o : ProviderCliArgsOptions) (args : List String) :
    List String :=
  match o.defaultArgs with
  | some l => if l ≠ [] then args ++ l else args
  | none => args

/-- The auto-approve push: when requested and the flag is truthy, append
its shell tokens. -/
def autoApproveStep (win32 : Bool) (o : ProviderCliArgsOptions)
    (args : List String) : List String :=
  if o.autoApprove ∧ o.autoApproveFlag.getD "" ≠ "" then
    args ++ parseShellArgs win32 (o.autoApproveFlag.getD "") else args

/-- The initial-prompt push: only when the flag property is defined (not
undefined), keystroke injection is off and the trimmed prompt is
nonempty; a truthy flag contributes its shell tokens, then the trimmed
prompt itself is appended. -/
def promptStep (win32 : Bool) (o : ProviderCliArgsOptions)
    (args : List String) : List String :=
  if o.initialPromptFlag ≠ none ∧ o.useKeystrokeInjection = false ∧
      jsTrim (o.initialPrompt.getD "") ≠ "" then
    (if o.initialPromptFlag.getD "" ≠ "" then
      args ++ parseShellArgs win32 (o.initialPromptFlag.getD "")
    else args) ++ [jsTrim (o.initialPrompt.getD "")]
  else args

/-- The extra-args push: a present nonempty list is appended. -/
def extraStep (o : ProviderCliArgsOptions) (args : List String) :
    List String :=
  match o.extraArgs with
  | some l => if l ≠ [] then args ++ l else args
  | none => args

/-- buildProviderCliArgs of ptyManager.ts: the pushes of the source run
in order on the initially empty argument vector. -/
def buildProviderCliArgs (win32 : Bool) (o : ProviderCliArgsOptions) :
    List String :=
  extraStep o (promptStep win32 o (autoApproveStep win32 o
    (defaultStep o (resumeStep win32 o []))))

/-- The arguments emitted before the initial-prompt block: resume flag,
default args, auto-approve flag. -/
def leadArgs (win32 : Bool) (o : ProviderCliArgsOptions) : List String :=
  autoApproveStep win32 o (defaultStep o (resumeStep win32 o []))

/-- The arguments the initial-prompt block contributes on its own. -/
def promptPart (win32 : Bool) (o : ProviderCliArgsOptions) :
    List String :=
  if o.initialPromptFlag ≠ none ∧ o.useKeystrokeInjection = false ∧
      jsTrim (o.initialPrompt.getD "") ≠ "" then
    (if o.initialPromptFlag.getD "" ≠ "" then
      parseShellArgs win32 (o.initialPromptFlag.getD "") else []) ++
    [jsTrim (o.initialPrompt.getD "")]
  else []

/-- The arguments emitted after the initial-prompt block: extra args. -/
def tailArgs (o : ProviderCliArgsOptions) : List String :=
  match o.extraArgs with
  | some l => if l ≠ [] then l else []
  | none => []

lemma promptStep_eq (win32 : Bool) (o : ProviderCliArgsOptions)
    (args : List String) :
    promptStep win32 o args = args ++ promptPart win32 o := by
  unfold promptStep promptPart
  split_ifs <;> simp [List.append_assoc]

lemma extraStep_eq (o : ProviderCliArgsOptions) (args : List String) :
    extraStep o args = args ++ tailArgs o := by
  unfold extraStep tailArgs
  rcases o.extraArgs with _ | l
  · simp
  · by_cases hl : l = [] <;> simp [hl]

/-- buildProviderCliArgs decomposes into the lead arguments, the
initial-prompt block and the extra arguments, in that order. -/
lemma buildProviderCliArgs_decomp (win32 : Bool)
    (o : ProviderCliArgsOptions) :
    buildProviderCliArgs win32 o =
      leadArgs win32 o ++ promptPart win32 o ++ tailArgs o := by
  unfold buildProviderCliArgs leadArgs
  rw [extraStep_eq, promptStep_eq]

/-- C10: the trimmed prompt is appended exactly when the prompt flag is
defined, keystroke injection is off and the trimmed prompt is nonempty;
an empty-string flag yields the bare prompt with no preceding flag
tokens; an undefined flag omits the prompt entirely while all other
enabled argument groups are still emitted. -/
theorem buildProviderCliArgs_prompt (win32 : Bool)
    (o : ProviderCliArgsOptions) :
    (∀ f, o.initialPromptFlag = some f →
      o.useKeystrokeInjection = false →
      jsTrim (o.initialPrompt.getD "") ≠ "" →
      buildProviderCliArgs win32 o =
        leadArgs win32 o ++
          (if f ≠ "" then parseShellArgs win32 f else []) ++
          [jsTrim (o.initialPrompt.getD "")] ++ tailArgs o) ∧
    (o.initialPromptFlag = none →
      buildProviderCliArgs win32 o = leadArgs win32 o ++ tailArgs o) ∧
    (o.useKeystrokeInjection = true ∨ jsTrim (o.initialPrompt.getD "") = "" →
      buildProviderCliArgs win32 o = leadArgs win32 o ++ tailArgs o) := by
  refine ⟨?_, ?_, ?_⟩
  · intro f hf hk hp
    rw [buildProviderCliArgs_decomp]
    have hpp : promptPart win32 o =
        (if f ≠ "" then parseShellArgs win32 f else []) ++
          [jsTrim (o.initialPrompt.getD "")] := by
      unfold promptPart
      rw [if_pos ⟨by simp [hf], hk, hp⟩]
      simp [hf]
    rw [hpp]
    simp [List.append_assoc]
  · intro hf
    rw [buildProviderCliArgs_decomp]
    have hpp : promptPart win32 o = [] := by
      unfold promptPart
      rw [if_neg (by simp [hf])]
    rw [hpp]
    simp
  · intro hcase
    rw [buildProviderCliArgs_decomp]
    have hpp : promptPart win32 o = [] := by
      unfold promptPart
      rw [if_neg (by
        rintro ⟨-, hk, hp⟩
        rcases hcase with hc | hc
        · rw [hc] at hk
          cases hk
        · exact hp hc)]
    rw [hpp]
    simp

/-- Witness for C10 at concrete inputs. -/
theorem buildProviderCliArgs_prompt_witness :
    buildProviderCliArgs false
      ⟨false, none, some ["-d"], some ["-x"], true, some "--yes",
       some " fix it ", some "", false⟩ =
      leadArgs false
        ⟨false, none, some ["-d"], some ["-x"], true, some "--yes",
         some " fix it ", some "", false⟩ ++
        (if ("" : String) ≠ "" then parseShellArgs false "" else []) ++
        ["fix it"] ++
        tailArgs
          ⟨false, none, some ["-d"], some ["-x"], true, some "--yes",
           some " fix it ", some "", false⟩ :=
  (buildProviderCliArgs_prompt false
    ⟨false, none, some ["-d"], some ["-x"], true, some "--yes",
     some " fix it ", some "", false⟩).1 "" rfl rfl (by decide)

/-- C3: parseShellArgs returns exactly the tokenizations of the spec
examples, on both platforms where the example is platform-independent, and
on the POSIX platform for the backslash-escape example. -/
theorem parseShellArgs_spec_examples :
    parseShellArgs false "--message \"hello world\"" = ["--message", "hello world"] ∧
    parseShellArgs true "--message \"hello world\"" = ["--message", "hello world"] ∧
    parseShellArgs false "--path '/my dir/file'" = ["--path", "/my dir/file"] ∧
    parseShellArgs true "--path '/my dir/file'" = ["--path", "/my dir/file"] ∧
    parseShellArgs false "--arg \"say \\\"hi\\\"\"" = ["--arg", "say \"hi\""] := by
  refine ⟨?_, ?_, ?_, ?_, ?_⟩ <;> rfl
